import Mathlib

/-!
# Verification development for the KalshiArbBot core

Shallow embedding of the repository's signal-detection and execution
pipeline: `src/math_engine.py`, `src/mapping.py` and the core loop of
`src/main.py`.  Python floats are modelled as exact rationals (`ℚ`),
Python `None` as `Option`, and the Python string operations used by
`mapping.py` (`str.replace("@", "vs")`, `str.split("vs")`, `str.strip()`)
are given executable structurally-recursive models over `List Char` so
that concrete runs reduce inside the kernel.
-/

/-! ## Python string operations (used by `mapping.py`) -/

/-- Model of `title.replace("@", "vs")`: replace every `'@'` character by
the two characters `"vs"`. -/
def pyReplaceAtVs : List Char → List Char
  | [] => []
  | c :: rest =>
    if c = '@' then 'v' :: 's' :: pyReplaceAtVs rest
    else c :: pyReplaceAtVs rest

/-- Model of Python `s.split("vs")`: split on every non-overlapping,
leftmost occurrence of the two-character separator `"vs"`.  `acc` holds
the current piece in reverse. -/
def pySplitVs : List Char → List Char → List (List Char)
  | [], acc => [acc.reverse]
  | [c], acc => [(c :: acc).reverse]
  | c1 :: c2 :: rest, acc =>
    if c1 = 'v' ∧ c2 = 's' then acc.reverse :: pySplitVs rest []
    else pySplitVs (c2 :: rest) (c1 :: acc)

/-- Model of Python `s.strip()`: drop leading and trailing whitespace. -/
def pyStrip (l : List Char) : List Char :=
  ((l.dropWhile Char.isWhitespace).reverse.dropWhile Char.isWhitespace).reverse

/-! ## `src/math_engine.py` -/

/-- `american_to_implied_prob` from `src/math_engine.py`:
`if odds > 0: return 100 / (odds + 100)` else
`return abs(odds) / (abs(odds) + 100)`. -/
def american_to_implied_prob (odds : Int) : ℚ :=
  if 0 < odds then 100 / ((odds : ℚ) + 100)
  else (odds.natAbs : ℚ) / ((odds.natAbs : ℚ) + 100)

/-- `devig_two_way` from `src/math_engine.py`: proportional normalization
of the two raw implied probabilities; `(0, 0)` when their sum is zero. -/
def devig_two_way (odds_a odds_b : Int) : ℚ × ℚ :=
  let p_a := american_to_implied_prob odds_a
  let p_b := american_to_implied_prob odds_b
  let total := p_a + p_b
  if total = 0 then (0, 0)
  else (p_a / total, p_b / total)

/-- `kelly_fraction` from `src/math_engine.py`. -/
def kelly_fraction (edge payout : ℚ) : ℚ :=
  if payout ≤ 0 then 0
  else max 0 (edge / payout)

/-- `kelly_bet_size` from `src/math_engine.py`. -/
def kelly_bet_size (bankroll edge payout multiplier : ℚ) : ℚ :=
  max 0 (bankroll * kelly_fraction edge payout * multiplier)

/-! ## `src/mapping.py` -/

/-- `MarketEntry` dataclass from `src/mapping.py`. -/
structure MarketEntry where
  ticker : String
  title : String
  teams : List String
deriving DecidableEq

/-- The in-memory state of `MarketMapper` from `src/mapping.py`:
`_entries` and `_team_index` after `preload`. -/
structure MarketMapper where
  entries : List MarketEntry
  team_index : List String
deriving DecidableEq

/-- One market object of the catalog payload, with the `title` and
`ticker` fields read by `MarketMapper.preload` (defaults `""` applied). -/
structure RawMarket where
  title : String
  ticker : String
deriving DecidableEq

/-- `MarketMapper._extract_teams` from `src/mapping.py`:
`parts = [part.strip() for part in title.replace("@", "vs").split("vs")]`;
`return [part for part in parts if part]`. -/
def extract_teams (title : String) : List String :=
  ((pySplitVs (pyReplaceAtVs title.data) []).map
    (fun part => String.mk (pyStrip part))).filter (fun part => part ≠ "")

/-- `MarketMapper.preload` from `src/mapping.py`: one `MarketEntry` per
market of the payload, and the flat team index
`[team for entry in entries for team in entry.teams]`. -/
def preload (markets : List RawMarket) : MarketMapper :=
  let entries := markets.map
    (fun m => MarketEntry.mk m.ticker m.title (extract_teams m.title))
  { entries := entries, team_index := entries.flatMap (fun e => e.teams) }

/-- `rapidfuzz.process.extractOne` over a list of choices: the choice with
the maximal score (first one on ties), `none` only on an empty list.  The
scorer is abstract: `mapping.py` passes `fuzz.WRatio`, and no
`score_cutoff` is given, so the best match is returned whatever its
score. -/
def extractOne (score : String → ℚ) : List String → Option String
  | [] => none
  | x :: xs => some (xs.foldl (fun best c => if score best < score c then c else best) x)

/-- `MarketMapper.match_team` from `src/mapping.py`: `None` on an empty
index, otherwise the best-scoring team string, with no score threshold. -/
def match_team (scorer : String → String → ℚ) (m : MarketMapper) (name : String) :
    Option String :=
  if m.team_index.isEmpty then none
  else extractOne (scorer name) m.team_index

/-- `MarketMapper.find_market` from `src/mapping.py`: the first entry
whose `teams` contains the matched team string. -/
def find_market (scorer : String → String → ℚ) (m : MarketMapper)
    (team_name : String) : Option MarketEntry :=
  match match_team scorer m team_name with
  | none => none
  | some mt => m.entries.find? (fun e => e.teams.contains mt)

/-! ## `src/config.py` constants used by the core -/

/-- `BANKROLL` from `src/config.py`. -/
def BANKROLL : ℚ := 26

/-- `MAX_RISK_PER_TRADE` from `src/config.py`. -/
def MAX_RISK_PER_TRADE : ℚ := 2

/-- `MIN_EDGE` from `src/config.py` (the configured EV threshold). -/
def MIN_EDGE : ℚ := 2 / 100

/-- `TARGET_BOOKS` from `process_odds_feed` in `src/main.py`. -/
def TARGET_BOOKS : List String := ["draftkings", "fanduel", "pinnacle"]

/-! ## `src/main.py` -/

/-- `implied_prob` from `src/main.py` (the pipeline's own converter):
`if american_odds < 0: return (-american_odds) / (-american_odds + 100)`
else `return 100 / (american_odds + 100)`. -/
def implied_prob (american_odds : Int) : ℚ :=
  if american_odds < 0 then
    ((-american_odds : Int) : ℚ) / (((-american_odds : Int) : ℚ) + 100)
  else 100 / ((american_odds : ℚ) + 100)

/-- A `Signal` record appended to `BotState.opportunities` on a fire
(`market`/`edge`/`hedge` keys of the dict in `process_odds_feed`). -/
structure Signal where
  market : String
  edge : ℚ
  hedge : ℚ
deriving DecidableEq

/-- `BotState` from `src/main.py`. -/
structure BotState where
  bankroll : ℚ
  opportunities : List Signal
  logs : List String
deriving DecidableEq

/-- A fresh `BotState()` (bankroll defaults to `BANKROLL`). -/
def initBotState : BotState :=
  { bankroll := BANKROLL, opportunities := [], logs := [] }

/-- Python `l[-n:]`: the last `n` elements. -/
def lastN (n : Nat) (l : List String) : List String := l.drop (l.length - n)

/-- `BotState.log` from `src/main.py`: append, keep last 10 logs. -/
def BotState.log (st : BotState) (message : String) : BotState :=
  { st with logs := lastN 10 (st.logs ++ [message]) }

/-- Python `int()` truncation toward zero on a rational. -/
def pytrunc (q : ℚ) : Int := if q < 0 then Rat.ceil q else Rat.floor q

/-- The contract count computed at a fire in `process_odds_feed`:
`count = int(MAX_RISK_PER_TRADE / price_dollars)` with
`price_dollars = k_price_cents / 100`. -/
def snipe_count (k_price_cents : Int) : Int :=
  pytrunc (MAX_RISK_PER_TRADE / ((k_price_cents : ℚ) / 100))

/-- The order payload dispatched by `execute_snipe`
(`ticker`, `side`, `count`, `yes_price`). -/
structure Order where
  ticker : String
  side : String
  count : Int
  price : Int
deriving DecidableEq

/-- `execute_snipe` from `src/main.py`, with the HTTP response abstracted
as `some status` (a reply) or `none` (a network exception).  Returns the
success flag and the state after the log update; note that it never
touches `state.bankroll`. -/
def execute_snipe (resp_status : Option Nat) (st : BotState) (ticker : String)
    (count : Int) (price : Int) : Bool × BotState :=
  match resp_status with
  | some status =>
    if status = 201 ∨ status = 200 then
      (true, st.log ("FIRE SUCCESS: " ++ ticker))
    else
      (false, st.log "FIRE FAIL")
  | none => (false, st.log "NET ERROR")

/-- An `outcome` object of the odds payload (`name`, `price`). -/
structure Outcome where
  name : String
  price : Int
deriving DecidableEq

/-- A `market` object of the odds payload (`key`, `outcomes`). -/
structure BookMarket where
  key : String
  outcomes : List Outcome
deriving DecidableEq

/-- A `bookmaker` object of the odds payload (`key`, `markets`). -/
structure Bookmaker where
  key : String
  markets : List BookMarket
deriving DecidableEq

/-- An odds-feed payload (`home_team`, `bookmakers`); `home_team` is
`none` when the key is absent. -/
structure OddsEvent where
  home_team : Option String
  bookmakers : List Bookmaker
deriving DecidableEq

/-- The innermost body of `process_odds_feed` in `src/main.py` for a
single `outcome`: when the outcome is the home team, compute
`true_prob = implied_prob(sb_odds)`, read the Kalshi price (skipping
`None` and `0`, Python falsiness), compute
`edge = true_prob - k_prob`, and on `edge >= min_edge` with a positive
contract count log the signal, dispatch the order, and append the
opportunity.  `acc` carries the `BotState` and the orders dispatched so
far; `min_edge` is the configured threshold (`MIN_EDGE` in
`src/config.py`). -/
def process_outcome (min_edge : ℚ) (prices : String → Option Int)
    (ticker home_team : String) (acc : BotState × List Order) (o : Outcome) :
    BotState × List Order :=
  if o.name = home_team then
    let true_prob := implied_prob o.price
    match prices ticker with
    | none => acc
    | some k_price_cents =>
      if k_price_cents = 0 then acc
      else
        let k_prob := (k_price_cents : ℚ) / 100
        let edge := true_prob - k_prob
        if min_edge ≤ edge then
          let price_dollars := (k_price_cents : ℚ) / 100
          let count := pytrunc (MAX_RISK_PER_TRADE / price_dollars)
          if 0 < count then
            let st := acc.1.log ("SIGNAL: " ++ ticker)
            let st := { st with opportunities := st.opportunities ++ [⟨ticker, edge, 0⟩] }
            (st, acc.2 ++ [⟨ticker, "yes", count, k_price_cents⟩])
          else acc
        else acc
  else acc

/-- One iteration of the `process_odds_feed` loop in `src/main.py` on a
single dequeued payload: extract `home_team` (skip on Python-falsy),
resolve it through the mapper, then iterate the sharp bookmakers'
`h2h` markets' outcomes.  Returns the updated state and the list of
orders dispatched (`asyncio.create_task(execute_snipe ...)`) for this
event. -/
def process_event (scorer : String → String → ℚ) (min_edge : ℚ)
    (prices : String → Option Int) (mapper : MarketMapper) (st : BotState)
    (ev : OddsEvent) : BotState × List Order :=
  match ev.home_team with
  | none => (st, [])
  | some home_team =>
    if home_team = "" then (st, [])
    else
      match find_market scorer mapper home_team with
      | none => (st, [])
      | some entry =>
        ev.bookmakers.foldl (fun acc bookie =>
          if TARGET_BOOKS.contains bookie.key then
            bookie.markets.foldl (fun acc mkt =>
              if mkt.key = "h2h" then
                mkt.outcomes.foldl
                  (process_outcome min_edge prices entry.ticker home_team) acc
              else acc) acc
          else acc) (st, [])

/-- Consecutive iterations of the `process_odds_feed` loop over a queue
of events, accumulating all dispatched orders. -/
def process_events (scorer : String → String → ℚ) (min_edge : ℚ)
    (prices : String → Option Int) (mapper : MarketMapper) (st : BotState)
    (evs : List OddsEvent) : BotState × List Order :=
  evs.foldl (fun acc ev =>
    let r := process_event scorer min_edge prices mapper acc.1 ev
    (r.1, acc.2 ++ r.2)) (st, [])

/-! ## Concrete scenarios used by the claims -/

/-- Catalog with a single market for team A (the C1/C2/C4 scenario). -/
def teamACatalog : List RawMarket := [⟨"Team A vs Team B", "A-WIN"⟩]

/-- The mapper state after `preload` on `teamACatalog`. -/
def teamAMapper : MarketMapper := preload teamACatalog

/-- An odds event: sharp book `pinnacle`, `h2h`, `-150` for team A vs
`+130` for team B. -/
def teamAEvent : OddsEvent :=
  ⟨some "Team A",
   [⟨"pinnacle", [⟨"h2h", [⟨"Team A", -150⟩, ⟨"Team B", 130⟩]⟩]⟩]⟩

/-- A cached Kalshi ask of 45 cents for team A's contract. -/
def teamAPrices : String → Option Int :=
  fun t => if t = "A-WIN" then some 45 else none

/-- A degenerate fuzzy scorer; the scenario catalogs have a single
contract, so resolution does not depend on the scorer. -/
def constScorer : String → String → ℚ := fun _ _ => 0

/-- Catalog containing the Chiefs/Raiders contract of C3. -/
def chiefsCatalog : List RawMarket :=
  [⟨"Kansas City Chiefs vs Las Vegas Raiders", "CHIEFS-WIN"⟩]

/-- The mapper state after `preload` on `chiefsCatalog`. -/
def chiefsMapper : MarketMapper := preload chiefsCatalog

/-- The loaded entry for the Chiefs/Raiders contract. -/
def chiefsEntry : MarketEntry :=
  ⟨"CHIEFS-WIN", "Kansas City Chiefs vs Las Vegas Raiders",
   ["Kansas City Chiefs", "Las Vegas Raiders"]⟩

/-- Catalog with a single market for team C (the C5 scenario). -/
def teamCCatalog : List RawMarket := [⟨"Team C vs Team D", "C-WIN"⟩]

/-- The mapper state after `preload` on `teamCCatalog`. -/
def teamCMapper : MarketMapper := preload teamCCatalog

/-- An odds event with `-110` for team C from `fanduel`. -/
def teamCEvent : OddsEvent :=
  ⟨some "Team C", [⟨"fanduel", [⟨"h2h", [⟨"Team C", -110⟩]⟩]⟩]⟩

/-- A cached Kalshi ask of 50 cents for team C's contract. -/
def teamCPrices : String → Option Int :=
  fun t => if t = "C-WIN" then some 50 else none


/-! ## Helper lemmas -/

attribute [local semireducible] Rat.add Rat.mul Rat.inv Rat.sub

/-- For a nonpositive integer the `ℚ`-cast of `natAbs` is the negation. -/
theorem natAbs_cast_of_nonpos {o : Int} (h : o ≤ 0) :
    ((o.natAbs : ℚ)) = -(o : ℚ) := by
  have h2 : (o.natAbs : Int) = -o := by omega
  calc ((o.natAbs : ℚ)) = (((o.natAbs : Int) : ℚ)) := (Int.cast_natCast o.natAbs).symm
    _ = ((-o : Int) : ℚ) := by rw [h2]
    _ = -(o : ℚ) := by rw [Int.cast_neg]

/-- A nonzero odds value has a positive implied probability. -/
theorem american_to_implied_prob_pos {o : Int} (h : o ≠ 0) :
    0 < american_to_implied_prob o := by
  unfold american_to_implied_prob
  split_ifs with hpos
  · have h1 : (0 : ℚ) < (o : ℚ) + 100 := by
      have : (0 : ℚ) < (o : ℚ) := by exact_mod_cast hpos
      linarith
    exact div_pos (by norm_num) h1
  · have h1 : (0 : ℚ) < (o.natAbs : ℚ) := by
      exact_mod_cast Int.natAbs_pos.mpr h
    exact div_pos h1 (by linarith)

/-- `american_to_implied_prob` on a negative value, written without
`natAbs`. -/
theorem american_to_implied_prob_of_neg {o : Int} (h : o < 0) :
    american_to_implied_prob o = (-(o : ℚ)) / (-(o : ℚ) + 100) := by
  simp only [american_to_implied_prob, if_neg (not_lt.2 h.le)]
  rw [natAbs_cast_of_nonpos h.le]

/-- Folding a list preserves an invariant preserved by each step. -/
theorem foldl_preserve {α β : Type*} (P : β → Prop) (f : β → α → β)
    (hf : ∀ b a, P b → P (f b a)) :
    ∀ (l : List α) (b : β), P b → P (l.foldl f b) := by
  intro l
  induction l with
  | nil => intro b hb; exact hb
  | cons x xs ih => intro b hb; exact ih (f b x) (hf b x hb)

/-- `process_outcome` never modifies the bankroll. -/
theorem process_outcome_bankroll (min_edge : ℚ) (prices : String → Option Int)
    (ticker home_team : String) (acc : BotState × List Order) (o : Outcome) :
    (process_outcome min_edge prices ticker home_team acc o).1.bankroll =
      acc.1.bankroll := by
  simp only [process_outcome, BotState.log]
  repeat' split
  all_goals rfl

/-- Any order emitted by `process_outcome` was either already accumulated
or carries the positive fixed-risk contract count. -/
theorem process_outcome_orders (min_edge : ℚ) (prices : String → Option Int)
    (ticker home_team : String) (acc : BotState × List Order) (o : Outcome)
    (ord : Order)
    (h : ord ∈ (process_outcome min_edge prices ticker home_team acc o).2) :
    ord ∈ acc.2 ∨ (ord.count = snipe_count ord.price ∧ 0 < ord.count) := by
  simp only [process_outcome] at h
  repeat' split at h
  all_goals
    first
      | exact Or.inl h
      | (rw [List.mem_append] at h
         rcases h with h2 | h2
         · exact Or.inl h2
         · rw [List.mem_singleton] at h2
           subst h2
           exact Or.inr ⟨rfl, by assumption⟩)

/-- `process_event` never modifies the bankroll. -/
theorem process_event_bankroll (scorer : String → String → ℚ) (min_edge : ℚ)
    (prices : String → Option Int) (mapper : MarketMapper) (st : BotState)
    (ev : OddsEvent) :
    (process_event scorer min_edge prices mapper st ev).1.bankroll =
      st.bankroll := by
  unfold process_event
  cases hht : ev.home_team with
  | none => rfl
  | some home_team =>
    by_cases h0 : home_team = ""
    · simp [h0]
    · simp only [if_neg h0]
      cases hfm : find_market scorer mapper home_team with
      | none => rfl
      | some entry =>
        refine foldl_preserve (fun acc : BotState × List Order => acc.1.bankroll = st.bankroll) _ ?_ _ _ rfl
        intro acc bookie hacc
        by_cases hb : TARGET_BOOKS.contains bookie.key
        · simp only [if_pos hb]
          refine foldl_preserve (fun acc : BotState × List Order => acc.1.bankroll = st.bankroll) _ ?_ _ _ hacc
          intro acc2 mkt hacc2
          by_cases hm : mkt.key = "h2h"
          · simp only [if_pos hm]
            refine foldl_preserve (fun acc : BotState × List Order => acc.1.bankroll = st.bankroll) _ ?_ _ _ hacc2
            intro acc3 oc hacc3
            rw [process_outcome_bankroll]
            exact hacc3
          · simp only [if_neg hm]
            exact hacc2
        · simp only [if_neg hb]
          exact hacc

/-! ## Claim theorems -/

/-- Claim C1, counterexample: at sharp odds `-150` / `+130` and cached
price 45¢ the edge the pipeline records is `3/20 = 0.15`, computed from
the raw implied probability `0.6` of the matched outcome; it is not the
devig-based edge, and the devigged fair probability `69/119 ≈ 0.5798`
differs from the probability the pipeline uses. -/
theorem fire_edge_not_devig :
    (process_event constScorer (5/100) teamAPrices teamAMapper initBotState
      teamAEvent).1.opportunities = [⟨"A-WIN", 3/20, 0⟩] ∧
    (devig_two_way (-150) 130).1 - 45/100 ≠ 3/20 ∧
    implied_prob (-150) ≠ (devig_two_way (-150) 130).1 :=
  ⟨by decide, by decide, by decide⟩

/-- Claim C1 (amended): the fair probability the pipeline uses is the raw
implied probability of the matched outcome (`devig_two_way` is never
applied): at `-150` vs `+130` and cached price 45¢ the edge is
`implied_prob (-150) - 45/100 = 3/20 = 0.15`, so with threshold `0.05` a
fire occurs with positive contract count 4 and a Signal appended, and
with threshold `0.20` no fire occurs. -/
theorem fire_scenario_raw_prob :
    (process_event constScorer (5/100) teamAPrices teamAMapper initBotState
      teamAEvent).2 = [⟨"A-WIN", "yes", 4, 45⟩] ∧
    (process_event constScorer (5/100) teamAPrices teamAMapper initBotState
      teamAEvent).1.opportunities =
      [⟨"A-WIN", implied_prob (-150) - 45/100, 0⟩] ∧
    implied_prob (-150) - 45/100 = 3/20 ∧ (0 : Int) < 4 ∧
    (process_event constScorer (20/100) teamAPrices teamAMapper initBotState
      teamAEvent).2 = [] ∧
    (process_event constScorer (20/100) teamAPrices teamAMapper initBotState
      teamAEvent).1.opportunities = [] :=
  ⟨by decide, by decide, by decide, by decide, by decide, by decide⟩

/-- Claim C2, failing input evaluated: the loop keeps no per-ticker fire
history, so two consecutive identical fire-decision events on the same
ticker dispatch two order submissions, not one. -/
theorem duplicate_fire_two_orders :
    (process_events constScorer MIN_EDGE teamAPrices teamAMapper initBotState
      [teamAEvent, teamAEvent]).2 =
      [⟨"A-WIN", "yes", 4, 45⟩, ⟨"A-WIN", "yes", 4, 45⟩] := by decide

/-- Claim C3, failing input evaluated: `find_market` applies no similarity
threshold, so against a catalog holding only the Chiefs/Raiders contract
the query "Zzyzx Nonexistent Team" still resolves to that contract (for
every scorer, hence in particular for `fuzz.WRatio`), instead of
returning none; the in-catalog query resolves to the same contract. -/
theorem resolve_without_threshold :
    (∀ scorer : String → String → ℚ,
      find_market scorer chiefsMapper "Zzyzx Nonexistent Team" =
        some chiefsEntry) ∧
    (∀ scorer : String → String → ℚ,
      find_market scorer chiefsMapper "Kansas City Chiefs" =
        some chiefsEntry) := by
  have hm : chiefsMapper =
      ⟨[chiefsEntry], ["Kansas City Chiefs", "Las Vegas Raiders"]⟩ := by decide
  constructor
  · intro scorer
    rw [hm]
    by_cases hc : scorer "Zzyzx Nonexistent Team" "Kansas City Chiefs" <
        scorer "Zzyzx Nonexistent Team" "Las Vegas Raiders"
    · simp only [find_market, match_team, extractOne, List.foldl, if_pos hc]
      decide
    · simp only [find_market, match_team, extractOne, List.foldl, if_neg hc]
      decide
  · intro scorer
    rw [hm]
    by_cases hc : scorer "Kansas City Chiefs" "Kansas City Chiefs" <
        scorer "Kansas City Chiefs" "Las Vegas Raiders"
    · simp only [find_market, match_team, extractOne, List.foldl, if_pos hc]
      decide
    · simp only [find_market, match_team, extractOne, List.foldl, if_neg hc]
      decide

/-- Claim C3 witness at the concrete scorer. -/
theorem resolve_without_threshold_witness :
    find_market constScorer chiefsMapper "Zzyzx Nonexistent Team" =
      some chiefsEntry ∧
    find_market constScorer chiefsMapper "Kansas City Chiefs" =
      some chiefsEntry :=
  ⟨resolve_without_threshold.1 constScorer,
   resolve_without_threshold.2 constScorer⟩

/-- Claim C4, counterexample: a fire occurs (an order is dispatched), yet
the bankroll after the fire decision and after a failed submission (HTTP
400) still equals the initial 26 — it is not decremented by the notional
stake `4 * 45¢ = 1.80`. -/
theorem fire_leaves_bankroll :
    (process_event constScorer MIN_EDGE teamAPrices teamAMapper initBotState
      teamAEvent).2 = [⟨"A-WIN", "yes", 4, 45⟩] ∧
    (process_event constScorer MIN_EDGE teamAPrices teamAMapper initBotState
      teamAEvent).1.bankroll = 26 ∧
    (execute_snipe (some 400)
      (process_event constScorer MIN_EDGE teamAPrices teamAMapper initBotState
        teamAEvent).1 "A-WIN" 4 45).2.bankroll = 26 ∧
    (26 : ℚ) - (4 * 45 : ℚ) / 100 ≠ 26 :=
  ⟨by decide, by decide, by decide, by decide⟩

/-- Claim C4 (amended): the pipeline and the order-submission path never
modify the bankroll — no optimistic decrement happens at fire time and
there is nothing to reverse on failure — so after any sequence of
processed events the bankroll equals its initial value and in particular
never goes negative from the initial state. -/
theorem bankroll_never_modified :
    (∀ (scorer : String → String → ℚ) (min_edge : ℚ)
        (prices : String → Option Int) (mapper : MarketMapper)
        (st : BotState) (evs : List OddsEvent),
      (process_events scorer min_edge prices mapper st evs).1.bankroll =
        st.bankroll) ∧
    (∀ (resp_status : Option Nat) (st : BotState) (ticker : String)
        (count price : Int),
      (execute_snipe resp_status st ticker count price).2.bankroll =
        st.bankroll) ∧
    (∀ (scorer : String → String → ℚ) (min_edge : ℚ)
        (prices : String → Option Int) (mapper : MarketMapper)
        (evs : List OddsEvent),
      0 ≤ (process_events scorer min_edge prices mapper initBotState
        evs).1.bankroll) := by
  have hev : ∀ scorer min_edge prices mapper st evs,
      (process_events scorer min_edge prices mapper st evs).1.bankroll =
        st.bankroll := by
    intro scorer min_edge prices mapper st evs
    unfold process_events
    refine foldl_preserve
      (fun acc : BotState × List Order => acc.1.bankroll = st.bankroll)
      _ ?_ _ _ rfl
    intro acc ev hacc
    simpa [process_event_bankroll] using hacc
  refine ⟨hev, ?_, ?_⟩
  · intro resp_status st ticker count price
    unfold execute_snipe BotState.log
    cases resp_status with
    | none => rfl
    | some status =>
      by_cases hs : status = 201 ∨ status = 200
      · simp only [if_pos hs]
      · simp only [if_neg hs]
  · intro scorer min_edge prices mapper evs
    rw [hev]
    norm_num [initBotState, BANKROLL]

/-- Claim C4 witness at concrete inputs. -/
theorem bankroll_never_modified_witness :
    (process_events constScorer MIN_EDGE teamAPrices teamAMapper initBotState
      [teamAEvent]).1.bankroll = initBotState.bankroll ∧
    (execute_snipe (some 400) initBotState "A-WIN" 4 45).2.bankroll =
      initBotState.bankroll ∧
    0 ≤ (process_events constScorer MIN_EDGE teamAPrices teamAMapper
      initBotState [teamAEvent]).1.bankroll :=
  ⟨bankroll_never_modified.1 constScorer MIN_EDGE teamAPrices teamAMapper
      initBotState [teamAEvent],
   bankroll_never_modified.2.1 (some 400) initBotState "A-WIN" 4 45,
   bankroll_never_modified.2.2 constScorer MIN_EDGE teamAPrices teamAMapper
      [teamAEvent]⟩

/-- Claim C5, counterexample: at odds `-110`, cached price 50¢ and the
configured `MIN_EDGE`, the pipeline fires 4 contracts — the fixed-risk
count `int(2.00/0.50)` — whereas the Kelly-sized count (even at full
Kelly, multiplier 1, with payout `(1-0.5)/0.5`) is 1; the code never
calls the Kelly engine. -/
theorem fire_count_not_kelly :
    (process_event constScorer MIN_EDGE teamCPrices teamCMapper initBotState
      teamCEvent).2 = [⟨"C-WIN", "yes", 4, 50⟩] ∧
    pytrunc (kelly_bet_size BANKROLL (implied_prob (-110) - 50/100)
      ((1 - 50/100) / (50/100)) 1 / (50/100)) = 1 ∧
    (4 : Int) ≠ 1 :=
  ⟨by decide, by decide, by decide⟩

/-- Claim C5 (amended): every order the pipeline dispatches carries the
fixed-risk contract count `int(MAX_RISK_PER_TRADE / price_dollars)` (not
a Kelly-derived one), and that count is positive — a computed count ≤ 0
is never dispatched. -/
theorem fire_count_fixed_risk (scorer : String → String → ℚ) (min_edge : ℚ)
    (prices : String → Option Int) (mapper : MarketMapper) (st : BotState)
    (ev : OddsEvent) :
    ∀ ord ∈ (process_event scorer min_edge prices mapper st ev).2,
      ord.count = snipe_count ord.price ∧ 0 < ord.count := by
  unfold process_event
  cases hht : ev.home_team with
  | none => simp
  | some home_team =>
    by_cases h0 : home_team = ""
    · simp [h0]
    · simp only [if_neg h0]
      cases hfm : find_market scorer mapper home_team with
      | none => simp
      | some entry =>
        refine foldl_preserve
          (fun acc : BotState × List Order =>
            ∀ ord ∈ acc.2, ord.count = snipe_count ord.price ∧ 0 < ord.count)
          _ ?_ _ _ (by simp)
        intro acc bookie hacc
        by_cases hb : TARGET_BOOKS.contains bookie.key
        · simp only [if_pos hb]
          refine foldl_preserve
            (fun acc : BotState × List Order =>
              ∀ ord ∈ acc.2, ord.count = snipe_count ord.price ∧ 0 < ord.count)
            _ ?_ _ _ hacc
          intro acc2 mkt hacc2
          by_cases hk : mkt.key = "h2h"
          · simp only [if_pos hk]
            refine foldl_preserve
              (fun acc : BotState × List Order =>
                ∀ ord ∈ acc.2,
                  ord.count = snipe_count ord.price ∧ 0 < ord.count)
              _ ?_ _ _ hacc2
            intro acc3 oc hacc3 ord hord
            rcases process_outcome_orders min_edge prices entry.ticker
              home_team acc3 oc ord hord with h | h
            · exact hacc3 ord h
            · exact h
          · simp only [if_neg hk]
            exact hacc2
        · simp only [if_neg hb]
          exact hacc

/-- Claim C5 witness: the order fired in the C1 scenario carries the
fixed-risk count, which is positive. -/
theorem fire_count_fixed_risk_witness :
    (⟨"A-WIN", "yes", 4, 45⟩ : Order).count =
      snipe_count (⟨"A-WIN", "yes", 4, 45⟩ : Order).price ∧
    0 < (⟨"A-WIN", "yes", 4, 45⟩ : Order).count :=
  fire_count_fixed_risk constScorer (5/100) teamAPrices teamAMapper
    initBotState teamAEvent ⟨"A-WIN", "yes", 4, 45⟩ (by decide)

/-- Claim C6, counterexample: at input 0 the converter returns the number
0 — it does not fail with an `InvalidOdds` error (the function is total),
and the returned value also differs from the `odds ≥ 0` formula
`100/(0+100) = 1`. -/
theorem implied_prob_zero_no_error :
    american_to_implied_prob 0 = 0 ∧
    american_to_implied_prob 0 ≠ 100 / ((0 : ℚ) + 100) :=
  ⟨by decide, by decide⟩

/-- Claim C6 (amended): `american_to_implied_prob` returns
`100/(odds+100)` for `odds > 0` and `|odds|/(|odds|+100)` for
`odds ≤ 0`; at `odds = 0` it returns 0 rather than failing. -/
theorem american_to_implied_prob_cases :
    (∀ odds : Int, 0 < odds →
      american_to_implied_prob odds = 100 / ((odds : ℚ) + 100)) ∧
    (∀ odds : Int, odds ≤ 0 →
      american_to_implied_prob odds =
        (odds.natAbs : ℚ) / ((odds.natAbs : ℚ) + 100)) ∧
    american_to_implied_prob 0 = 0 := by
  refine ⟨?_, ?_, by decide⟩
  · intro odds h
    simp only [american_to_implied_prob, if_pos h]
  · intro odds h
    simp only [american_to_implied_prob, if_neg (not_lt.2 h)]

/-- Claim C6 witness at concrete odds. -/
theorem american_to_implied_prob_cases_witness :
    american_to_implied_prob 150 = 100 / (((150 : Int) : ℚ) + 100) ∧
    american_to_implied_prob (-150) =
      (((-150 : Int).natAbs : ℚ)) / (((-150 : Int).natAbs : ℚ) + 100) ∧
    american_to_implied_prob 0 = 0 :=
  ⟨american_to_implied_prob_cases.1 150 (by decide),
   american_to_implied_prob_cases.2.1 (-150) (by decide),
   american_to_implied_prob_cases.2.2⟩

/-- Claim C7, counterexample: `-110` and `-150` have the same sign and
`|-110| < |-150|`, yet the implied probability increases
(`11/21 < 3/5`), so the function is not decreasing in `|odds|` on the
negative sign. -/
theorem implied_prob_neg_increasing :
    (-110 : Int).natAbs < (-150 : Int).natAbs ∧
    american_to_implied_prob (-110) < american_to_implied_prob (-150) :=
  ⟨by decide, by decide⟩

/-- Claim C7 (amended): `american_to_implied_prob` is strictly decreasing
in `|odds|` on positive odds, strictly increasing in `|odds|` on negative
odds, and maps both `+100` and `-100` to `1/2`. -/
theorem implied_prob_monotone_amended :
    (∀ o1 o2 : Int, 0 < o1 → o1 < o2 →
      american_to_implied_prob o2 < american_to_implied_prob o1) ∧
    (∀ o1 o2 : Int, o2 < o1 → o1 < 0 →
      american_to_implied_prob o1 < american_to_implied_prob o2) ∧
    american_to_implied_prob 100 = 1 / 2 ∧
    american_to_implied_prob (-100) = 1 / 2 := by
  refine ⟨?_, ?_, by decide, by decide⟩
  · intro o1 o2 h1 h12
    have h2 : (0 : Int) < o2 := h1.trans h12
    have hc1 : (0 : ℚ) < (o1 : ℚ) + 100 := by
      have : (0 : ℚ) < (o1 : ℚ) := by exact_mod_cast h1
      linarith
    have hc2 : (0 : ℚ) < (o2 : ℚ) + 100 := by
      have : (0 : ℚ) < (o2 : ℚ) := by exact_mod_cast h2
      linarith
    have hlt : (o1 : ℚ) < (o2 : ℚ) := by exact_mod_cast h12
    simp only [american_to_implied_prob, if_pos h1, if_pos h2]
    rw [div_lt_div_iff₀ hc2 hc1]
    nlinarith
  · intro o1 o2 h21 h1
    have h2 : o2 < 0 := h21.trans h1
    have ha1 : (0 : ℚ) < -(o1 : ℚ) := by
      have : (o1 : ℚ) < 0 := by exact_mod_cast h1
      linarith
    have ha2 : (0 : ℚ) < -(o2 : ℚ) := by
      have : (o2 : ℚ) < 0 := by exact_mod_cast h2
      linarith
    have hlt : -(o1 : ℚ) < -(o2 : ℚ) := by
      have : (o2 : ℚ) < (o1 : ℚ) := by exact_mod_cast h21
      linarith
    rw [american_to_implied_prob_of_neg h1,
      american_to_implied_prob_of_neg h2,
      div_lt_div_iff₀ (by linarith) (by linarith)]
    nlinarith

/-- Claim C7 witness at concrete odds pairs. -/
theorem implied_prob_monotone_witness :
    american_to_implied_prob 150 < american_to_implied_prob 110 ∧
    american_to_implied_prob (-110) < american_to_implied_prob (-150) :=
  ⟨implied_prob_monotone_amended.1 110 150 (by decide) (by decide),
   implied_prob_monotone_amended.2.1 (-110) (-150) (by decide) (by decide)⟩

/-- Claim C8: `devig_two_way` returns a pair summing exactly to 1 for any
nonzero odds, and returns `(0, 0)` whenever the raw implied probabilities
sum to zero (no failure). -/
theorem devig_two_way_sum_spec :
    (∀ a b : Int, a ≠ 0 → b ≠ 0 →
      (devig_two_way a b).1 + (devig_two_way a b).2 = 1) ∧
    (∀ a b : Int,
      american_to_implied_prob a + american_to_implied_prob b = 0 →
      devig_two_way a b = (0, 0)) := by
  constructor
  · intro a b ha hb
    have hpa := american_to_implied_prob_pos ha
    have hpb := american_to_implied_prob_pos hb
    have htot : (0 : ℚ) <
        american_to_implied_prob a + american_to_implied_prob b := by
      linarith
    simp only [devig_two_way, if_neg (ne_of_gt htot)]
    rw [div_add_div_same, div_self (ne_of_gt htot)]
  · intro a b h
    simp only [devig_two_way, if_pos h]

/-- Claim C8 witness at concrete inputs. -/
theorem devig_two_way_sum_witness :
    (devig_two_way (-150) 130).1 + (devig_two_way (-150) 130).2 = 1 ∧
    devig_two_way 0 0 = (0, 0) :=
  ⟨devig_two_way_sum_spec.1 (-150) 130 (by decide) (by decide),
   devig_two_way_sum_spec.2 0 0 (by decide)⟩

/-- Claim C9, counterexample: a market whose title yields no team names
(here the empty title) is still loaded into `entries` with an empty
`teams` sequence — it is not excluded. -/
theorem preload_keeps_empty_teams :
    (preload [⟨"", "T1"⟩]).entries = [⟨"T1", "", []⟩] ∧
    (MarketEntry.mk "T1" "" []).teams = [] :=
  ⟨by decide, by decide⟩

/-- Claim C9 (amended): `preload` keeps one entry per market of the
payload regardless of whether the title yields team names (entries with
empty `teams` are retained); only the flat team index is restricted to
the extracted, non-empty team names. -/
theorem preload_load_shape :
    (∀ markets : List RawMarket,
      (preload markets).entries.length = markets.length) ∧
    (∀ markets : List RawMarket,
      ∀ t ∈ (preload markets).team_index, t ≠ "") := by
  constructor
  · intro markets
    simp [preload]
  · intro markets t ht
    simp only [preload, List.mem_flatMap, List.mem_map] at ht
    obtain ⟨e, ⟨m, hm, rfl⟩, hte⟩ := ht
    simp only [extract_teams, List.mem_filter] at hte
    exact of_decide_eq_true hte.2

/-- Claim C9 witness on the Chiefs catalog. -/
theorem preload_load_shape_witness :
    (preload chiefsCatalog).entries.length = chiefsCatalog.length ∧
    "Kansas City Chiefs" ≠ "" :=
  ⟨preload_load_shape.1 chiefsCatalog,
   preload_load_shape.2 chiefsCatalog "Kansas City Chiefs" (by decide)⟩

/-- Claim C10: the pipeline's local converter `implied_prob` in
`src/main.py` and the Math Engine's `american_to_implied_prob` agree on
every nonzero odds value. -/
theorem implied_prob_equiv (o : Int) (h : o ≠ 0) :
    implied_prob o = american_to_implied_prob o := by
  rcases lt_or_gt_of_ne h with hneg | hpos
  · simp only [implied_prob, american_to_implied_prob, if_pos hneg,
      if_neg (not_lt.2 hneg.le)]
    rw [natAbs_cast_of_nonpos hneg.le]
    push_cast
    ring_nf
  · simp only [implied_prob, american_to_implied_prob,
      if_neg (not_lt.2 hpos.le), if_pos hpos]

/-- Claim C10 witness at concrete odds. -/
theorem implied_prob_equiv_witness :
    implied_prob (-150) = american_to_implied_prob (-150) :=
  implied_prob_equiv (-150) (by decide)
